import Mathlib

/-!
Shallow embedding of the FrostForecast consumption dashboard (src/app.py).

Numeric cells, costs and credits are modelled as rationals; hour buckets as
integers; tables as explicit lists of rows.  Each definition mirrors one
function or code block of `app.py`, named after it where Lean allows.
-/

namespace FrostForecast

/-! ### Rounding

`round(x, 2)` in Python rounds half to even (banker's rounding); we model the
ideal decimal version over `ℚ`. -/

/-- Round a rational to the nearest integer, ties to even (Python `round`). -/
def roundHalfEven (q : ℚ) : ℤ :=
  let f := ⌊q⌋
  let r := q - f
  if r < 1/2 then f
  else if 1/2 < r then f + 1
  else if f % 2 = 0 then f else f + 1

/-- Round a rational to 2 decimal places (Python `round(x, 2)`). -/
def round2 (q : ℚ) : ℚ := (roundHalfEven (q * 100) : ℚ) / 100

/-! ### Formatter: `format_bytes` (app.py lines 178-185)

The Python function returns the formatted string `f"{round(v, 2)} {unit}"`;
we keep the rounded magnitude and the unit suffix separately. -/

structure FormattedBytes where
  value : ℚ
  suffix : String
deriving DecidableEq, Repr

/-- `format_bytes`: bytes below 1 GB render in MB, below 1 TB in GB, else TB. -/
def format_bytes (bytes_value : ℚ) : FormattedBytes :=
  if bytes_value < 1024 ^ 3 then ⟨round2 (bytes_value / 1024 ^ 2), " MB"⟩
  else if bytes_value < 1024 ^ 4 then ⟨round2 (bytes_value / 1024 ^ 3), " GB"⟩
  else ⟨round2 (bytes_value / 1024 ^ 4), " TB"⟩

/-! ### Projection engine (`render_predictions_tab`, app.py lines 898-922) -/

/-- The fixed projection horizons (app.py line 900). -/
def timeframes : List ℕ := [30, 60, 90, 120]

/-- Per-kind current costs captured by "Generate Prediction"
(app.py lines 825-831), in the insertion order of the Python dict. -/
structure PredictionData where
  warehouse_cost : ℚ
  compute_pool_cost : ℚ
  pipe_cost : ℚ
  serverless_task_cost : ℚ
  cortex_function_cost : ℚ
deriving DecidableEq, Repr

/-- `prediction_data.items()`: Python dicts iterate in insertion order. -/
def predictionItems (p : PredictionData) : List (String × ℚ) :=
  [("warehouse_cost", p.warehouse_cost),
   ("compute_pool_cost", p.compute_pool_cost),
   ("pipe_cost", p.pipe_cost),
   ("serverless_task_cost", p.serverless_task_cost),
   ("cortex_function_cost", p.cortex_function_cost)]

/-- `section.replace("_cost", "")` specialised to the substring `"_cost"`:
scan left to right, deleting each occurrence. -/
def stripCostList : List Char → List Char
  | [] => []
  | '_' :: 'c' :: 'o' :: 's' :: 't' :: rest => stripCostList rest
  | c :: rest => c :: stripCostList rest

/-- `section.replace("_cost", "")` (app.py line 910). -/
def stripCost (s : String) : String := String.mk (stripCostList s.toList)

/-- First value stored under a key in an association list. -/
def lookupStr {α : Type} : List (String × α) → String → Option α
  | [], _ => none
  | (k, v) :: rest, key => if k = key then some v else lookupStr rest key

/-- `growth_rates.get(growth_key, 0.5)` (app.py line 911): the per-kind growth
percentage, defaulting to 0.5. -/
def getRate (rates : List (String × ℚ)) (k : String) : ℚ :=
  (lookupStr rates k).getD (1/2)

/-- `current_cost * (1 + growth_rate) ** (days / 30)` with
`growth_rate = ratePct / 100` (app.py lines 911-912).  The code only ever
evaluates this at `days ∈ [30, 60, 90, 120]`, where `days / 30` is an exact
integer, so the natural-number division is exact. -/
def projectedCost (current ratePct : ℚ) (days : ℕ) : ℚ :=
  current * (1 + ratePct / 100) ^ (days / 30)

/-- One line of the receipt table: section key, current cost, and the
projected cost at each horizon. -/
structure ReceiptRow where
  sectionName : String
  current : ℚ
  proj : List (ℕ × ℚ)
deriving DecidableEq, Repr

/-- The receipt row built for one section (app.py lines 907-913). -/
def mkRow (rates : List (String × ℚ)) (sec : String) (cost : ℚ) : ReceiptRow :=
  ⟨sec, cost,
   timeframes.map (fun d => (d, projectedCost cost (getRate rates (stripCost sec)) d))⟩

/-- The per-section receipt rows: only sections with `current_cost > 0`
(app.py lines 905-916). -/
def projectRows (p : PredictionData) (rates : List (String × ℚ)) : List ReceiptRow :=
  (predictionItems p).filterMap
    (fun kv => if 0 < kv.2 then some (mkRow rates kv.1 kv.2) else none)

/-- `total_current`: accumulated over sections with positive cost
(app.py lines 902, 915). -/
def totalCurrent (p : PredictionData) : ℚ :=
  (((predictionItems p).filter (fun kv => decide (0 < kv.2))).map Prod.snd).sum

/-- `total_projected[days]`: accumulated over sections with positive cost
(app.py lines 903, 914). -/
def totalProjected (p : PredictionData) (rates : List (String × ℚ)) (d : ℕ) : ℚ :=
  (((predictionItems p).filter (fun kv => decide (0 < kv.2))).map
    (fun kv => projectedCost kv.2 (getRate rates (stripCost kv.1)) d)).sum

/-- The totals row (app.py lines 919-921). -/
def totalRow (p : PredictionData) (rates : List (String × ℚ)) : ReceiptRow :=
  ⟨"Total", totalCurrent p, timeframes.map (fun d => (d, totalProjected p rates d))⟩

/-- `receipt_data`: the per-section rows followed by the totals row
(app.py lines 901-922). -/
def receipt (p : PredictionData) (rates : List (String × ℚ)) : List ReceiptRow :=
  projectRows p rates ++ [totalRow p rates]

/-- The growth-rate controls exposed to the user: one per section with
positive cost (app.py lines 850-895), keyed like `growth_rates`. -/
def growthControls (p : PredictionData) : List String :=
  ((predictionItems p).filter (fun kv => decide (0 < kv.2))).map
    (fun kv => stripCost kv.1)

/-! ### Usage query builder: `fetch_materialized_view_data`
(app.py lines 90-159)

Rows of the five materialized views are modelled by their join-relevant
columns: the hour bucket, the resource-name column (the second column of each
view), and the semi-structured TAGS column (`none` = SQL NULL).  The
kind-specific numeric measures play no role in filtering and are carried by an
opaque payload field so that distinct source rows stay distinct. -/

/-- One element of a TAGS array: an `{ tag_name, tag_value }` object. -/
structure TagEntry where
  tag_name : String
  tag_value : String
deriving DecidableEq, Repr

/-- A row of a materialized view, as seen by the query builder. -/
structure MvRow where
  hour_start : ℤ
  resource_name : String
  tags : Option (List TagEntry)
  payload : ℤ
deriving DecidableEq, Repr

/-- The five materialized views (app.py lines 464-468). -/
inductive ViewName
  | mvWarehouseUsage
  | mvPipeUsage
  | mvServerlessTaskUsage
  | mvSpcsUsage
  | mvCortexFunctionCreditUsage
deriving DecidableEq, Repr

/-- The `filter_dict` built by the submission form (app.py lines 366-373):
`.get` on an absent key yields Python `None`, modelled as `none`. -/
structure FilterDict where
  warehouses : Option String
  tags : Option String
  pipes : Option String
  serverless_tasks : Option String
  compute_pools : Option String
  selected_tag : Option String
deriving DecidableEq, Repr

/-- Python truthiness test `not filter_dict.get(key)`: `None` and the empty
string are falsy. -/
def falsy : Option String → Bool
  | none => true
  | some s => s = ""

/-- Python `str.strip()`: drop leading and trailing whitespace. -/
def stripChars (l : List Char) : List Char :=
  ((l.dropWhile Char.isWhitespace).reverse.dropWhile Char.isWhitespace).reverse

/-- Python `str.split(",")`: split at every comma, keeping empty pieces. -/
def splitComma : List Char → List (List Char)
  | [] => [[]]
  | c :: rest =>
    match splitComma rest with
    | [] => [[c]]
    | h :: t => if c = ',' then [] :: h :: t else (c :: h) :: t

/-- `[w.strip() for w in s.split(",") if w.strip()]` (app.py line 104 etc.). -/
def parseNames (s : String) : List String :=
  (((splitComma s.toList).map stripChars).filter (fun cs => cs ≠ [])).map String.mk

/-- The raw name-filter string the code reads for a view, when the view has a
name branch at all (`MV_CORTEX_FUNCTION_CREDIT_USAGE` has none). -/
def nameField (v : ViewName) (f : FilterDict) : Option (Option String) :=
  match v with
  | .mvWarehouseUsage => some f.warehouses
  | .mvPipeUsage => some f.pipes
  | .mvServerlessTaskUsage => some f.serverless_tasks
  | .mvSpcsUsage => some f.compute_pools
  | .mvCortexFunctionCreditUsage => none

/-- The name predicate stage.  For the first three kinds
`col(NAME).isin(names)` is applied unconditionally (an empty list keeps no
row); for `MV_SPCS_USAGE` the filter is applied only when the parsed list is
non-empty (app.py lines 104-121). -/
def applyNameFilter (v : ViewName) (names : List String) (tbl : List MvRow) :
    List MvRow :=
  if v = .mvSpcsUsage ∧ names.isEmpty then tbl
  else tbl.filter (fun r => names.contains r.resource_name)

/-- The tag entries of a row whose `tag_value` is in the requested list
(FLATTEN of a NULL variant yields no rows). -/
def matchEntries (r : MvRow) (tagVals : List String) : List TagEntry :=
  (r.tags.getD []).filter (fun e => tagVals.contains e.tag_value)

/-- The `flattened_tags` subquery (app.py lines 129-136): one row per
matching tag entry of the raw view, keyed by (hour bucket, resource name),
each carrying a single-entry tag array. -/
def flattenedTags (view : List MvRow) (tagVals : List String) :
    List (ℤ × String × TagEntry) :=
  view.flatMap (fun r =>
    (matchEntries r tagVals).map (fun e => (r.hour_start, r.resource_name, e)))

/-- The join condition (app.py lines 140-141). -/
def keyMatches (r : MvRow) (m : ℤ × String × TagEntry) : Bool :=
  decide (m.1 = r.hour_start ∧ m.2.1 = r.resource_name)

/-- The LEFT join of the base table with `flattened_tags`, with TAGS replaced
by `filtered_tags` (app.py lines 138-145): every base row is kept; a row with
k matching join partners yields k output rows, each holding that partner's
single-entry tag array; an unmatched row yields one output row with NULL
tags. -/
def tagJoin (base : List MvRow) (flat : List (ℤ × String × TagEntry)) :
    List MvRow :=
  base.flatMap (fun r =>
    let ms := flat.filter (keyMatches r)
    if ms.isEmpty then [{ r with tags := none }]
    else ms.map (fun m => { r with tags := some [m.2.2] }))

/-- The tag-filter stage (app.py lines 123-145): runs only when the view has
a TAGS column, the raw tag string is truthy, the view is not
`MV_SPCS_USAGE`, and the parsed tag list is non-empty.  `flattened_tags` is
built from the raw view, the base table is the name-filtered one. -/
def applyTagFilter (v : ViewName) (hasTags : Bool) (f : FilterDict)
    (base view : List MvRow) : List MvRow :=
  if hasTags ∧ ¬ falsy f.tags ∧ v ≠ .mvSpcsUsage then
    let tagVals := parseNames (f.tags.getD "")
    if tagVals.isEmpty then base
    else tagJoin base (flattenedTags view tagVals)
  else base

/-- The time-range stage (app.py lines 147-151): applied only when both
timestamps are supplied, identically for all five views, keeping hour buckets
in the closed interval `[start, end]`. -/
def timeFilter (startTs endTs : Option ℤ) (rows : List MvRow) : List MvRow :=
  match startTs, endTs with
  | some s, some e =>
    rows.filter (fun r => decide (s ≤ r.hour_start ∧ r.hour_start ≤ e))
  | _, _ => rows

/-- The result of `fetch_materialized_view_data`: the early return of a bare
`pd.DataFrame()` issues no query (`queryIssued = false`); every other path
runs `table.to_pandas()`. -/
structure FetchResult where
  queryIssued : Bool
  rows : List MvRow
deriving DecidableEq, Repr

/-- `fetch_materialized_view_data` (app.py lines 90-159) over a view `tbl`.
`hasTags` models the schema check `"TAGS" in columns` (app.py lines 96-97). -/
def fetch (v : ViewName) (hasTags : Bool) (fd : Option FilterDict)
    (startTs endTs : Option ℤ) (tbl : List MvRow) : FetchResult :=
  match fd with
  | none => ⟨true, timeFilter startTs endTs tbl⟩
  | some f =>
    match nameField v f with
    | some raw =>
      if falsy raw then ⟨false, []⟩
      else
        let names := parseNames (raw.getD "")
        let t1 := applyNameFilter v names tbl
        let t2 := applyTagFilter v hasTags f t1 tbl
        ⟨true, timeFilter startTs endTs t2⟩
    | none =>
      let t2 := applyTagFilter v hasTags f tbl tbl
      ⟨true, timeFilter startTs endTs t2⟩

/-- The per-row expansion the tag-filter stage is meant to perform: a row
with k ≥ 1 matching tag entries expands to k copies each carrying one
matching entry; a row with none is kept once with NULL tags. -/
def expandRow (r : MvRow) (tagVals : List String) : List MvRow :=
  let ms := matchEntries r tagVals
  if ms.isEmpty then [{ r with tags := none }]
  else ms.map (fun e => { r with tags := some [e] })

/-- (Hour bucket, resource name) pairwise distinguishes the rows of a view:
the key the tag join joins back on. -/
def KeysDistinct (view : List MvRow) : Prop :=
  view.Pairwise (fun a b =>
    a.hour_start ≠ b.hour_start ∨ a.resource_name ≠ b.resource_name)

/-! ### Aggregation & summary (`render_consumption_tab`, app.py lines
470-529)

A fetched pandas DataFrame is modelled as its column list (the schema) plus
rows of (column, numeric value) cells; entity-name cells are coded by their
values for the distinct-count tiles. -/

structure Table where
  cols : List String
  rows : List (List (String × ℚ))
deriving DecidableEq, Repr

/-- `df[c].sum()` over the rows, for an existing column `c`. -/
def colSum (t : Table) (c : String) : ℚ :=
  (t.rows.map (fun row => (lookupStr row c).getD 0)).sum

/-- Unguarded `df[c]` access: raises `KeyError` (modelled as `none`) when `c`
is not a column of the frame. -/
def colSumChecked (t : Table) (c : String) : Option ℚ :=
  if c ∈ t.cols then some (colSum t c) else none

/-- One kind's contribution to `total_credits`:
`df[c].sum() if c in df.columns and not df.empty else 0`
(app.py lines 471-475). -/
def creditTerm (t : Table) (c : String) : ℚ :=
  if c ∈ t.cols ∧ t.rows ≠ [] then colSum t c else 0

/-- Each kind's table paired with its primary credit column, in the order
the code sums them (app.py lines 470-476). -/
def primaryCreditCols (wh spcs pipe task cortex : Table) :
    List (Table × String) :=
  [(wh, "total_credits_used"), (spcs, "total_credits_used"),
   (pipe, "total_credits_used"), (task, "total_credits_used"),
   (cortex, "cf_total_token_credits")]

/-- `total_credits` (app.py lines 470-476). -/
def total_credits (wh spcs pipe task cortex : Table) : ℚ :=
  creditTerm wh "total_credits_used" + creditTerm spcs "total_credits_used" +
    creditTerm pipe "total_credits_used" +
    creditTerm task "total_credits_used" +
    creditTerm cortex "cf_total_token_credits"

/-- `total_cost = round(total_credits * price_per_credit, 2)`
(app.py line 477). -/
def total_cost (wh spcs pipe task cortex : Table) (price : ℚ) : ℚ :=
  round2 (total_credits wh spcs pipe task cortex * price)

/-- The guarded per-kind credit subtotal:
`df[c].sum() if c in df.columns else 0` (app.py lines 501, 567, 617, 680,
733). -/
def tileCredits (t : Table) (c : String) : ℚ :=
  if c ∈ t.cols then colSum t c else 0

/-- The guarded distinct-entity tile:
`len(df[c].unique()) if c in df.columns else 0` (app.py lines 579, 629,
692). -/
def distinctTile (t : Table) (c : String) : ℕ :=
  if c ∈ t.cols then
    ((t.rows.map (fun row => (lookupStr row c).getD 0)).dedup).length
  else 0

/-- The guarded byte-total tile:
`format_bytes(df['total_bytes_inserted'].sum()) if ... else '0 MB'`
(app.py line 643). -/
def bytesTile (t : Table) : FormattedBytes :=
  if "total_bytes_inserted" ∈ t.cols then
    format_bytes (colSum t "total_bytes_inserted")
  else ⟨0, " MB"⟩

/-- The warehouse Compute Credits tile
`round(wh_df['compute_credits_used'].sum(), 2)` (app.py line 520): the
column access is unguarded. -/
def computeCreditsTile (t : Table) : Option ℚ :=
  (colSumChecked t "compute_credits_used").map round2

/-- The warehouse Cloud Services Credits tile
`round(wh_df['cloud_services_credits_used'].sum(), 2)` (app.py line 527),
likewise unguarded. -/
def cloudServicesCreditsTile (t : Table) : Option ℚ :=
  (colSumChecked t "cloud_services_credits_used").map round2

/-! ### Filter store (`render_resource_submission_tab`, app.py lines
293-388)

The persisted preset document built on submission (app.py lines 366-374):
the five text inputs are always strings (possibly empty), the selected tag
may be Python `None`.  JSON serialisation of such a document round-trips
values unchanged, so the store keeps `FilterData` directly; the MERGE upsert
(lines 375-384) replaces the matched row or inserts a new one, and loading
(lines 322-330) reads the first row with the given FILTER_ID. -/

structure FilterData where
  warehouses : String
  tags : String
  pipes : String
  serverless_tasks : String
  compute_pools : String
  selected_tag : Option String
deriving DecidableEq, Repr

/-- The MERGE upsert by FILTER_ID (app.py lines 375-384). -/
def saveFilter : List (String × FilterData) → String → FilterData →
    List (String × FilterData)
  | [], fid, fd => [(fid, fd)]
  | (k, v) :: rest, fid, fd =>
    if k = fid then (fid, fd) :: rest else (k, v) :: saveFilter rest fid fd

/-- Loading a preset by name (app.py lines 322-330). -/
def loadFilter (store : List (String × FilterData)) (fid : String) :
    Option FilterData :=
  lookupStr store fid

/-! ### Theorems -/

/-- The time-range stage is the last stage of `fetch`: supplying both
timestamps filters the rows the time-free fetch would return. -/
theorem fetch_rows_timeFilter (v : ViewName) (hasTags : Bool)
    (fd : Option FilterDict) (s e : ℤ) (tbl : List MvRow) :
    (fetch v hasTags fd (some s) (some e) tbl).rows =
      timeFilter (some s) (some e) ((fetch v hasTags fd none none tbl).rows) := by
  cases fd with
  | none => rfl
  | some f =>
    cases hnf : nameField v f with
    | none => simp [fetch, hnf, timeFilter]
    | some raw =>
      by_cases hr : falsy raw
      · simp [fetch, hnf, hr, timeFilter]
      · simp [fetch, hnf, hr, timeFilter]

/-- C9: with both a start and an end timestamp supplied, fetch keeps exactly
the rows of the otherwise-identical fetch whose hour bucket lies in the
closed interval [start, end], for every view, filter and schema. -/
theorem c9_time_range_closed_interval (v : ViewName) (hasTags : Bool)
    (fd : Option FilterDict) (s e : ℤ) (tbl : List MvRow) (r : MvRow) :
    r ∈ (fetch v hasTags fd (some s) (some e) tbl).rows ↔
      r ∈ (fetch v hasTags fd none none tbl).rows ∧
        s ≤ r.hour_start ∧ r.hour_start ≤ e := by
  rw [fetch_rows_timeFilter]
  simp [timeFilter, List.mem_filter]

/-- C3 counterexample: a compute-pool name string that is non-empty but
trims/splits to the empty list does not short-circuit: the query is issued
and, for `MV_SPCS_USAGE`, no name predicate is applied at all, so the
returned table is not empty. -/
theorem c3_counterexample :
    parseNames " , " = [] ∧
    (fetch .mvSpcsUsage false
        (some ⟨none, none, none, none, some " , ", none⟩)
        none none [⟨0, "POOL1", none, 0⟩]).queryIssued = true ∧
    (fetch .mvSpcsUsage false
        (some ⟨none, none, none, none, some " , ", none⟩)
        none none [⟨0, "POOL1", none, 0⟩]).rows = [⟨0, "POOL1", none, 0⟩] := by
  decide

/-- C3 (amended): for the four name-filtered kinds, when a filter spec is
supplied and the raw name string for that kind is absent or the empty
string, fetch returns an empty table immediately with no query issued. -/
theorem c3_empty_name_short_circuit (v : ViewName) (f : FilterDict)
    (raw : Option String) (hnf : nameField v f = some raw)
    (hfalsy : falsy raw = true) :
    ∀ (hasTags : Bool) (s e : Option ℤ) (tbl : List MvRow),
      fetch v hasTags (some f) s e tbl = ⟨false, []⟩ := by
  intro hasTags s e tbl
  simp [fetch, hnf, hfalsy]

/-- Witness for C3 (amended) at an empty warehouse string. -/
theorem c3_empty_name_short_circuit_witness :
    nameField .mvWarehouseUsage ⟨some "", none, none, none, none, none⟩ =
        (some (some "") : Option (Option String)) ∧
    falsy (some "") = true ∧
    fetch .mvWarehouseUsage true
        (some ⟨some "", none, none, none, none, none⟩)
        (some 0) (some 5) [⟨1, "WH1", none, 0⟩] = ⟨false, []⟩ :=
  ⟨by decide, by decide,
   c3_empty_name_short_circuit .mvWarehouseUsage
     ⟨some "", none, none, none, none, none⟩ (some "")
     (by decide) (by decide) true (some 0) (some 5) _⟩

/-- C2 counterexample: a row none of whose tags has a value in the requested
list is nevertheless returned (with NULL tags) — the join is a LEFT join, so
non-matching base rows are not dropped. -/
theorem c2_counterexample :
    (∀ en ∈ ([⟨"env", "prod"⟩] : List TagEntry), en.tag_value ∉ ["dev"]) ∧
    (fetch .mvWarehouseUsage true
        (some ⟨some "WH1", some "dev", none, none, none, none⟩)
        none none [⟨0, "WH1", some [⟨"env", "prod"⟩], 0⟩]).rows =
      [⟨0, "WH1", none, 0⟩] := by
  decide

/-- Filtering the flattened-tags rows by one row's key recovers exactly that
row's own matching entries, provided (hour, name) distinguishes view rows. -/
theorem filter_flattenedTags (view : List MvRow) (tv : List String)
    (r : MvRow) (hmem : r ∈ view) (hkeys : KeysDistinct view) :
    (flattenedTags view tv).filter (keyMatches r) =
      (matchEntries r tv).map (fun e => (r.hour_start, r.resource_name, e)) := by
  induction view with
  | nil => cases hmem
  | cons a rest ih =>
    rw [KeysDistinct, List.pairwise_cons] at hkeys
    obtain ⟨hab, hrest⟩ := hkeys
    rw [flattenedTags, List.flatMap_cons, List.filter_append]
    rcases List.mem_cons.mp hmem with hra | hmem'
    · subst hra
      have h1 : ((matchEntries r tv).map
            (fun e => (r.hour_start, r.resource_name, e))).filter
            (keyMatches r) =
          (matchEntries r tv).map (fun e => (r.hour_start, r.resource_name, e)) := by
        rw [List.filter_map]
        congr 1
        apply List.filter_eq_self.mpr
        intro e _
        simp [keyMatches]
      have h2 : (flattenedTags rest tv).filter (keyMatches r) = [] := by
        apply List.filter_eq_nil_iff.mpr
        intro m hm
        rw [flattenedTags, List.mem_flatMap] at hm
        obtain ⟨b, hb, hmb⟩ := hm
        rw [List.mem_map] at hmb
        obtain ⟨en, _, hen⟩ := hmb
        subst hen
        simp only [keyMatches, decide_eq_true_eq]
        rcases hab b hb with h | h
        · exact fun hc => h (hc.1.symm)
        · exact fun hc => h (hc.2.symm)
      rw [← flattenedTags, h1, h2, List.append_nil]
    · have h1 : ((matchEntries a tv).map
            (fun e => (a.hour_start, a.resource_name, e))).filter
            (keyMatches r) = [] := by
        apply List.filter_eq_nil_iff.mpr
        intro m hm
        rw [List.mem_map] at hm
        obtain ⟨en, _, hen⟩ := hm
        subst hen
        simp only [keyMatches, decide_eq_true_eq]
        rcases hab r hmem' with h | h
        · exact fun hc => h hc.1
        · exact fun hc => h hc.2
      rw [← flattenedTags, h1, List.nil_append]
      exact ih hmem' hrest

/-- Joining a base table back onto the flattened tags of its parent view is
the per-row expansion, provided (hour, name) distinguishes view rows. -/
theorem tagJoin_eq_expand (base view : List MvRow) (tv : List String)
    (hsub : ∀ r ∈ base, r ∈ view) (hkeys : KeysDistinct view) :
    tagJoin base (flattenedTags view tv) =
      base.flatMap (fun r => expandRow r tv) := by
  induction base with
  | nil => rfl
  | cons r rest ih =>
    rw [tagJoin, List.flatMap_cons, ← tagJoin,
        ih (fun x hx => hsub x (List.mem_cons_of_mem r hx)),
        List.flatMap_cons]
    congr 1
    rw [filter_flattenedTags view tv r (hsub r (List.mem_cons_self r rest)) hkeys]
    rw [expandRow]
    by_cases hms : (matchEntries r tv).isEmpty
    · simp [hms, List.isEmpty_iff.mp hms]
    · have : ¬ ((matchEntries r tv).map
          (fun e => (r.hour_start, r.resource_name, e))).isEmpty := by
        simpa using hms
      simp only [this, hms, if_neg, Bool.false_eq_true, not_false_iff,
        ite_false, List.map_map]
      rfl

/-- C2 (amended): for a tag-carrying, name-filtered kind with a non-empty
tag-value list and a unique (hour bucket, resource name) key, the returned
table is the per-row expansion of the name-filtered base table: a base row
with k ≥ 1 tag entries whose value is in the list appears k times, each
carrying exactly one matching entry as its tag column; a base row with no
matching entry is kept once (LEFT join) with a NULL tag column. -/
theorem c2_tag_filter_left_join_expansion (v : ViewName) (f : FilterDict)
    (raw t : String) (view : List MvRow)
    (hnf : nameField v f = some (some raw)) (hv : v ≠ .mvSpcsUsage)
    (hraw : raw ≠ "") (ht : f.tags = some t) (htne : parseNames t ≠ [])
    (hkeys : KeysDistinct view) :
    (fetch v true (some f) none none view).rows =
      (view.filter (fun r => (parseNames raw).contains r.resource_name)).flatMap
        (fun r => expandRow r (parseNames t)) := by
  have hfr : falsy (some raw) = false := by simp [falsy, hraw]
  have htt : t ≠ "" := by
    intro h0
    exact htne (by rw [h0]; decide)
  have hft : falsy f.tags = false := by simp [ht, falsy, htt]
  have hbase : applyNameFilter v (parseNames raw) view =
      view.filter (fun r => (parseNames raw).contains r.resource_name) := by
    rw [applyNameFilter, if_neg]
    rintro ⟨hsp, -⟩
    exact hv hsp
  have htag : applyTagFilter v true f
      (view.filter (fun r => (parseNames raw).contains r.resource_name)) view =
      (view.filter (fun r => (parseNames raw).contains r.resource_name)).flatMap
        (fun r => expandRow r (parseNames t)) := by
    rw [applyTagFilter, if_pos ⟨rfl, by simp [hft], hv⟩, ht]
    simp only [Option.getD_some]
    rw [if_neg (by simpa using htne)]
    exact tagJoin_eq_expand _ view (parseNames t)
      (fun r hr => (List.mem_filter.mp hr).1) hkeys
  simp only [fetch, hnf, hfr, Bool.false_eq_true, if_false, Option.getD_some,
    hbase, htag, timeFilter]

/-- Witness for C2 (amended): one warehouse row with two matching tag
entries out of three expands to two rows, each holding one matching entry. -/
theorem c2_tag_filter_left_join_expansion_witness :
    (nameField .mvWarehouseUsage
        ⟨some "WH1", some "dev,qa", none, none, none, none⟩ =
      (some (some "WH1") : Option (Option String))) ∧
    parseNames "dev,qa" ≠ [] ∧
    KeysDistinct [⟨0, "WH1", some [⟨"env", "dev"⟩, ⟨"x", "qa"⟩, ⟨"y", "zz"⟩], 7⟩] ∧
    (fetch .mvWarehouseUsage true
        (some ⟨some "WH1", some "dev,qa", none, none, none, none⟩)
        none none
        [⟨0, "WH1", some [⟨"env", "dev"⟩, ⟨"x", "qa"⟩, ⟨"y", "zz"⟩], 7⟩]).rows =
      [⟨0, "WH1", some [⟨"env", "dev"⟩], 7⟩, ⟨0, "WH1", some [⟨"x", "qa"⟩], 7⟩] :=
  ⟨by decide, by decide, by simp [KeysDistinct],
   (c2_tag_filter_left_join_expansion .mvWarehouseUsage
      ⟨some "WH1", some "dev,qa", none, none, none, none⟩ "WH1" "dev,qa"
      [⟨0, "WH1", some [⟨"env", "dev"⟩, ⟨"x", "qa"⟩, ⟨"y", "zz"⟩], 7⟩]
      (by decide) (by decide) (by decide) rfl (by decide)
      (by simp [KeysDistinct])).trans (by decide)⟩

/-- C1: for every positive current cost, growth rate and horizon in
{30, 60, 90, 120} days, the projection engine computes
`currentCost × (1 + growthRate/100) ^ (horizonDays / 30)`, i.e. one, two,
three and four compounding periods; with currentCost = 100 and
growthRate = 10 the projected costs are exactly 110, 121, 133.10, 146.41. -/
theorem c1_projection_compounding :
    (∀ cost rate : ℚ, 0 < cost →
      projectedCost cost rate 30 = cost * (1 + rate / 100) ∧
      projectedCost cost rate 60 = cost * (1 + rate / 100) ^ 2 ∧
      projectedCost cost rate 90 = cost * (1 + rate / 100) ^ 3 ∧
      projectedCost cost rate 120 = cost * (1 + rate / 100) ^ 4) ∧
    projectedCost 100 10 30 = 110 ∧
    projectedCost 100 10 60 = 121 ∧
    projectedCost 100 10 90 = 1331 / 10 ∧
    projectedCost 100 10 120 = 14641 / 100 := by
  refine ⟨fun cost rate _ => ⟨?_, ?_, ?_, ?_⟩, ?_, ?_, ?_, ?_⟩ <;>
    norm_num [projectedCost]

/-- Witness for C1 at currentCost = 100, growthRate = 10. -/
theorem c1_projection_compounding_witness :
    (0 : ℚ) < 100 ∧ projectedCost 100 10 60 = 100 * (1 + 10 / 100) ^ 2 :=
  ⟨by norm_num, (c1_projection_compounding.1 100 10 (by norm_num)).2.1⟩

/-- C10: every byte count below 1 GB (2^30) renders as the value divided by
2^20 rounded to 2 decimals with suffix " MB"; every count of at least
1 TB (2^40) renders in TB; and the only tiers are MB, GB, TB (no bytes or
KB tier). -/
theorem c10_format_bytes_tiers :
    (∀ b : ℚ, b < 2 ^ 30 → format_bytes b = ⟨round2 (b / 2 ^ 20), " MB"⟩) ∧
    (∀ b : ℚ, 2 ^ 40 ≤ b → (format_bytes b).suffix = " TB") ∧
    (∀ b : ℚ, (format_bytes b).suffix = " MB" ∨
      (format_bytes b).suffix = " GB" ∨ (format_bytes b).suffix = " TB") := by
  have h2 : (1024 : ℚ) ^ 2 = 2 ^ 20 := by norm_num
  have h3 : (1024 : ℚ) ^ 3 = 2 ^ 30 := by norm_num
  have h4 : (1024 : ℚ) ^ 4 = 2 ^ 40 := by norm_num
  refine ⟨?_, ?_, ?_⟩
  · intro b hb
    rw [format_bytes, if_pos (by rw [h3]; exact hb), h2]
  · intro b hb
    have hn3 : ¬ b < 1024 ^ 3 := by rw [h3]; push_neg; calc
      (2 : ℚ) ^ 30 ≤ 2 ^ 40 := by norm_num
      _ ≤ b := hb
    have hn4 : ¬ b < 1024 ^ 4 := by rw [h4]; push_neg; exact hb
    rw [format_bytes, if_neg hn3, if_neg hn4]
  · intro b
    rw [format_bytes]
    split_ifs <;> simp

/-- Witness for C10 at 0 bytes and at 2 TB. -/
theorem c10_format_bytes_tiers_witness :
    ((0 : ℚ) < 2 ^ 30 ∧ format_bytes 0 = ⟨round2 (0 / 2 ^ 20), " MB"⟩) ∧
    ((2 : ℚ) ^ 40 ≤ 2 ^ 41 ∧ (format_bytes (2 ^ 41)).suffix = " TB") :=
  ⟨⟨by norm_num, c10_format_bytes_tiers.1 0 (by norm_num)⟩,
   ⟨by norm_num, c10_format_bytes_tiers.2.1 (2 ^ 41) (by norm_num)⟩⟩



/-- C4: total credits is the sum over the five kinds of that kind's primary
credit column (cf_total_token_credits for the cortex kind,
total_credits_used for the others), a kind contributing 0 when its table is
empty or lacks the column, and the displayed total cost is total credits
times price per credit rounded to 2 decimals. -/
theorem c4_total_credits_sum (wh spcs pipe task cortex : Table) (price : ℚ) :
    total_credits wh spcs pipe task cortex =
      ((primaryCreditCols wh spcs pipe task cortex).map
        (fun tc => creditTerm tc.1 tc.2)).sum ∧
    (∀ (t : Table) (c : String), t.rows = [] ∨ c ∉ t.cols →
      creditTerm t c = 0) ∧
    total_cost wh spcs pipe task cortex price =
      round2 (total_credits wh spcs pipe task cortex * price) := by
  refine ⟨?_, ?_, rfl⟩
  · simp only [total_credits, primaryCreditCols, List.map_cons, List.map_nil,
      List.sum_cons, List.sum_nil]
    ring
  · intro t c h
    rw [creditTerm, if_neg]
    rintro ⟨hc, hr⟩
    rcases h with h | h
    · exact hr h
    · exact h hc

/-- Witness for C4 at the empty table. -/
theorem c4_total_credits_sum_witness :
    ((⟨[], []⟩ : Table).rows = [] ∨
      "total_credits_used" ∉ (⟨[], []⟩ : Table).cols) ∧
    creditTerm ⟨[], []⟩ "total_credits_used" = 0 :=
  ⟨Or.inl rfl,
   (c4_total_credits_sum ⟨[], []⟩ ⟨[], []⟩ ⟨[], []⟩ ⟨[], []⟩ ⟨[], []⟩ 1).2.1
     ⟨[], []⟩ "total_credits_used" (Or.inl rfl)⟩

/-- C6 counterexample: a non-empty warehouse table lacking the
compute_credits_used column makes the Compute Credits tile raise a KeyError
(`none`) instead of defaulting to zero — so not every summary aggregate
treats a missing column as zero. -/
theorem c6_counterexample :
    ((⟨["total_credits_used"], [[("total_credits_used", 5)]]⟩ : Table).rows
        ≠ []) ∧
    computeCreditsTile
        ⟨["total_credits_used"], [[("total_credits_used", 5)]]⟩ = none := by
  constructor
  · simp
  · rfl

/-- C6 (amended): the total-credits contributions and the guarded tiles
(per-kind credit subtotals, distinct-entity counts, byte totals) default to
zero when the expected column is missing; the warehouse compute-credits and
cloud-services-credits tiles instead access the column unguarded and error
exactly when it is missing. -/
theorem c6_missing_column_defaults (t : Table) (c : String) :
    (c ∉ t.cols →
      creditTerm t c = 0 ∧ tileCredits t c = 0 ∧ distinctTile t c = 0) ∧
    ("total_bytes_inserted" ∉ t.cols → bytesTile t = ⟨0, " MB"⟩) ∧
    (computeCreditsTile t = none ↔ "compute_credits_used" ∉ t.cols) ∧
    (cloudServicesCreditsTile t = none ↔
      "cloud_services_credits_used" ∉ t.cols) := by
  refine ⟨?_, ?_, ?_, ?_⟩
  · intro hc
    refine ⟨?_, ?_, ?_⟩
    · rw [creditTerm, if_neg (fun h => hc h.1)]
    · rw [tileCredits, if_neg hc]
    · rw [distinctTile, if_neg hc]
  · intro hc
    rw [bytesTile, if_neg hc]
  · rw [computeCreditsTile, colSumChecked]
    split_ifs with h <;> simp [h]
  · rw [cloudServicesCreditsTile, colSumChecked]
    split_ifs with h <;> simp [h]

/-- Witness for C6 (amended) at a table with a single unrelated column. -/
theorem c6_missing_column_defaults_witness :
    ("pipe_name" ∉ (⟨["total_credits_used"], []⟩ : Table).cols) ∧
    creditTerm ⟨["total_credits_used"], []⟩ "pipe_name" = 0 ∧
    tileCredits ⟨["total_credits_used"], []⟩ "pipe_name" = 0 ∧
    distinctTile ⟨["total_credits_used"], []⟩ "pipe_name" = 0 :=
  ⟨by decide,
   ((c6_missing_column_defaults ⟨["total_credits_used"], []⟩ "pipe_name").1
     (by decide)).1,
   ((c6_missing_column_defaults ⟨["total_credits_used"], []⟩ "pipe_name").1
     (by decide)).2.1,
   ((c6_missing_column_defaults ⟨["total_credits_used"], []⟩ "pipe_name").1
     (by decide)).2.2⟩


/-- Membership in the growth-rate control set is membership of a
positive-cost section's stripped key. -/
theorem mem_growthControls_iff (p : PredictionData) (k : String) :
    k ∈ growthControls p ↔
      ∃ kv ∈ predictionItems p, 0 < kv.2 ∧ stripCost kv.1 = k := by
  simp only [growthControls, List.mem_map, List.mem_filter,
    decide_eq_true_eq]
  constructor
  · rintro ⟨kv, ⟨hkv, hpos⟩, hstrip⟩
    exact ⟨kv, hkv, hpos, hstrip⟩
  · rintro ⟨kv, hkv, hpos, hstrip⟩
    exact ⟨kv, ⟨hkv, hpos⟩, hstrip⟩

/-- A receipt row with a given section name exists iff a positive-cost
section with that key does. -/
theorem exists_row_iff (p : PredictionData) (rates : List (String × ℚ))
    (sec : String) :
    (∃ r ∈ projectRows p rates, r.sectionName = sec) ↔
      ∃ kv ∈ predictionItems p, 0 < kv.2 ∧ kv.1 = sec := by
  simp only [projectRows, List.mem_filterMap]
  constructor
  · rintro ⟨r, ⟨kv, hkv, hif⟩, hsec⟩
    by_cases h : 0 < kv.2
    · rw [if_pos h] at hif
      cases hif
      exact ⟨kv, hkv, h, hsec⟩
    · rw [if_neg h] at hif
      cases hif
  · rintro ⟨kv, hkv, h, hsec⟩
    exact ⟨mkRow rates kv.1 kv.2, ⟨kv, hkv, if_pos h⟩, hsec⟩

/-- The five section keys of the prediction snapshot. -/
theorem keys_mem (p : PredictionData) (kv : String × ℚ)
    (h : kv ∈ predictionItems p) :
    kv.1 ∈ ["warehouse_cost", "compute_pool_cost", "pipe_cost",
      "serverless_task_cost", "cortex_function_cost"] := by
  simp only [predictionItems, List.mem_cons, List.not_mem_nil, or_false] at h
  rcases h with h | h | h | h | h <;> simp [h]

/-- `stripCost` is injective on the five section keys. -/
theorem stripCost_injOn :
    ∀ a ∈ ["warehouse_cost", "compute_pool_cost", "pipe_cost",
      "serverless_task_cost", "cortex_function_cost"],
    ∀ b ∈ ["warehouse_cost", "compute_pool_cost", "pipe_cost",
      "serverless_task_cost", "cortex_function_cost"],
      stripCost a = stripCost b → a = b := by decide

/-- The prediction snapshot stores one cost per section key. -/
theorem predictionItems_inj (p : PredictionData) (sec : String) (c1 c2 : ℚ)
    (h1 : (sec, c1) ∈ predictionItems p) (h2 : (sec, c2) ∈ predictionItems p) :
    c1 = c2 := by
  simp only [predictionItems, List.mem_cons, List.mem_singleton,
    Prod.mk.injEq] at h1 h2
  rcases h1 with ⟨rfl, rfl⟩ | ⟨rfl, rfl⟩ | ⟨rfl, rfl⟩ | ⟨rfl, rfl⟩ | ⟨rfl, rfl⟩ <;>
    rcases h2 with ⟨h, rfl⟩ | ⟨h, rfl⟩ | ⟨h, rfl⟩ | ⟨h, rfl⟩ | ⟨h, rfl⟩ <;>
    simp_all

/-- C5: a resource kind appears in the projection rows iff its snapshot cost
is strictly positive, and likewise for the growth-rate control set; kinds
with cost ≤ 0 appear in neither. -/
theorem c5_positive_cost_inclusion (p : PredictionData)
    (rates : List (String × ℚ)) (sec : String) (cost : ℚ)
    (hmem : (sec, cost) ∈ predictionItems p) :
    ((∃ r ∈ projectRows p rates, r.sectionName = sec) ↔ 0 < cost) ∧
    (stripCost sec ∈ growthControls p ↔ 0 < cost) := by
  constructor
  · rw [exists_row_iff]
    constructor
    · rintro ⟨kv, hkv, hpos, hsec⟩
      have hkveta : (sec, kv.2) ∈ predictionItems p := by
        rw [← hsec]
        exact hkv
      exact predictionItems_inj p sec kv.2 cost hkveta hmem ▸ hpos
    · intro hpos
      exact ⟨(sec, cost), hmem, hpos, rfl⟩
  · rw [mem_growthControls_iff]
    constructor
    · rintro ⟨kv, hkv, hpos, hstrip⟩
      have hk1 : kv.1 = sec :=
        stripCost_injOn kv.1 (keys_mem p kv hkv) sec
          (keys_mem p (sec, cost) hmem) hstrip
      have hkveta : (sec, kv.2) ∈ predictionItems p := by
        rw [← hk1]
        exact hkv
      exact predictionItems_inj p sec kv.2 cost hkveta hmem ▸ hpos
    · intro hpos
      exact ⟨(sec, cost), hmem, hpos, rfl⟩

/-- Witness for C5: in a snapshot with warehouse cost 100 the warehouse kind
appears in rows and controls. -/
theorem c5_positive_cost_inclusion_witness :
    (("warehouse_cost", (100 : ℚ)) ∈ predictionItems ⟨100, 0, 50, 0, 0⟩) ∧
    ((∃ r ∈ projectRows ⟨100, 0, 50, 0, 0⟩ [], r.sectionName = "warehouse_cost")
      ↔ (0 : ℚ) < 100) ∧
    (stripCost "warehouse_cost" ∈ growthControls ⟨100, 0, 50, 0, 0⟩ ↔
      (0 : ℚ) < 100) :=
  ⟨by simp [predictionItems],
   (c5_positive_cost_inclusion ⟨100, 0, 50, 0, 0⟩ [] "warehouse_cost" 100
     (by simp [predictionItems])).1,
   (c5_positive_cost_inclusion ⟨100, 0, 50, 0, 0⟩ [] "warehouse_cost" 100
     (by simp [predictionItems])).2⟩


/-- The current costs of the receipt rows sum to the positive-cost items'
costs. -/
theorem sum_rows_current (rates : List (String × ℚ))
    (items : List (String × ℚ)) :
    (((items.filterMap
        (fun kv => if 0 < kv.2 then some (mkRow rates kv.1 kv.2) else none)).map
      (fun r => r.current)).sum) =
      ((items.filter (fun kv => decide (0 < kv.2))).map Prod.snd).sum := by
  induction items with
  | nil => rfl
  | cons kv rest ih =>
    by_cases h : 0 < kv.2
    · rw [List.filterMap_cons, if_pos h, List.filter_cons,
        if_pos (decide_eq_true h), List.map_cons, List.map_cons,
        List.sum_cons, List.sum_cons, ih]
      rfl
    · rw [List.filterMap_cons, if_neg h, List.filter_cons,
        if_neg (by simp [h]), ih]

/-- The per-row projected costs at a horizon sum to the positive-cost items'
projected costs. -/
theorem sum_rows_projected (rates : List (String × ℚ)) (d : ℕ)
    (items : List (String × ℚ)) :
    (((items.filterMap
        (fun kv => if 0 < kv.2 then some (mkRow rates kv.1 kv.2) else none)).map
      (fun r =>
        projectedCost r.current (getRate rates (stripCost r.sectionName)) d)).sum) =
      ((items.filter (fun kv => decide (0 < kv.2))).map
        (fun kv => projectedCost kv.2 (getRate rates (stripCost kv.1)) d)).sum := by
  induction items with
  | nil => rfl
  | cons kv rest ih =>
    by_cases h : 0 < kv.2
    · rw [List.filterMap_cons, if_pos h, List.filter_cons,
        if_pos (decide_eq_true h), List.map_cons, List.map_cons,
        List.sum_cons, List.sum_cons, ih]
      rfl
    · rw [List.filterMap_cons, if_neg h, List.filter_cons,
        if_neg (by simp [h]), ih]

/-- C8: the projection is a pure function of the snapshot and the growth-rate
map — identical inputs give an identical receipt — and the totals row is the
element-wise sum over the included rows: its current cost is the sum of the
rows' current costs, each row carries exactly the per-horizon projections of
its own cost, and each horizon's total is the sum of the rows' projections at
that horizon. -/
theorem c8_projection_pure_and_total (p : PredictionData)
    (rates : List (String × ℚ)) :
    receipt p rates = receipt p rates ∧
    (∀ r ∈ projectRows p rates,
      r.proj = timeframes.map (fun d =>
        (d, projectedCost r.current (getRate rates (stripCost r.sectionName)) d))) ∧
    totalCurrent p = ((projectRows p rates).map (fun r => r.current)).sum ∧
    ∀ d ∈ timeframes,
      totalProjected p rates d =
        ((projectRows p rates).map (fun r =>
          projectedCost r.current (getRate rates (stripCost r.sectionName)) d)).sum := by
  refine ⟨rfl, ?_, ?_, ?_⟩
  · intro r hr
    rw [projectRows, List.mem_filterMap] at hr
    obtain ⟨kv, _, hif⟩ := hr
    by_cases h : 0 < kv.2
    · rw [if_pos h] at hif
      cases hif
      rfl
    · rw [if_neg h] at hif
      cases hif
  · rw [totalCurrent, projectRows, sum_rows_current]
  · intro d _
    rw [totalProjected, projectRows, sum_rows_projected]

/-- Witness for C8 at a concrete snapshot, rate map and the 30-day horizon. -/
theorem c8_projection_pure_and_total_witness :
    (30 ∈ timeframes) ∧
    totalProjected ⟨100, 0, 50, 0, 0⟩ [("warehouse", 10)] 30 =
      ((projectRows ⟨100, 0, 50, 0, 0⟩ [("warehouse", 10)]).map (fun r =>
        projectedCost r.current
          (getRate [("warehouse", 10)] (stripCost r.sectionName)) 30)).sum :=
  ⟨by decide,
   (c8_projection_pure_and_total ⟨100, 0, 50, 0, 0⟩ [("warehouse", 10)]).2.2.2
     30 (by decide)⟩

/-- C7: saving a filter specification under a name and then loading that
name reproduces an equal specification, including empty fields and the
selected tag (which may be absent). -/
theorem c7_preset_round_trip (store : List (String × FilterData))
    (fid : String) (fd : FilterData) (_hfid : fid ≠ "") :
    loadFilter (saveFilter store fid fd) fid = some fd := by
  induction store with
  | nil => simp [saveFilter, loadFilter, lookupStr]
  | cons kv rest ih =>
    obtain ⟨k, v⟩ := kv
    by_cases hk : k = fid
    · simp [saveFilter, hk, loadFilter, lookupStr]
    · rw [saveFilter, if_neg hk, loadFilter, lookupStr, if_neg hk]
      exact ih

/-- Witness for C7: a preset with empty name lists and no selected tag
round-trips through a non-empty store. -/
theorem c7_preset_round_trip_witness :
    ("prod" : String) ≠ "" ∧
    loadFilter
        (saveFilter [("other", ⟨"WH9", "", "", "", "", some "env"⟩)]
          "prod" ⟨"", "", "", "", "", none⟩)
        "prod" = some ⟨"", "", "", "", "", none⟩ :=
  ⟨by decide,
   c7_preset_round_trip [("other", ⟨"WH9", "", "", "", "", some "env"⟩)]
     "prod" ⟨"", "", "", "", "", none⟩ (by decide)⟩

end FrostForecast
